import Mathlib

/-!
Verification of the VLC demuxer control protocol (include/vlc_demux.h) and
the EPG overlay renderer (src/video_output/video_epg.c).

C strings are embedded as `List Char`; machine integers as `Int`/`Nat`;
the `float` slider ratio as `ℚ` (only order/clamping properties are at
stake, which do not depend on rounding of the representation).
-/

/-- ASCII lowercase conversion, the behaviour of C `tolower` in the default
locale on ASCII data, as used by `strcasecmp`. -/
def tolower (c : Char) : Char :=
  if 'A' ≤ c ∧ c ≤ 'Z' then Char.ofNat (c.toNat + 32) else c

/-- C `strrchr(s, ch)`: a pointer to the LAST occurrence of `ch` in `s`,
embedded as the suffix of the list starting at that occurrence; `none` when
`ch` does not occur. -/
def strrchr : List Char → Char → Option (List Char)
  | [], _ => none
  | c :: cs, ch =>
    match strrchr cs ch with
    | some r => some r
    | none => if c = ch then some (c :: cs) else none

/-- C `strcasecmp(a, b) == 0`: the two strings are equal up to ASCII case. -/
def strcasecmpEq (a b : List Char) : Bool :=
  a.map tolower == b.map tolower

/-- `demux_IsPathExtension` from include/vlc_demux.h lines 154-160:
take the suffix of the path at the last dot; false when there is no dot or
the suffix differs case-insensitively from the extension, true otherwise. -/
def demux_IsPathExtension (path ext : List Char) : Bool :=
  match strrchr path '.' with
  | none => false
  | some psz_ext => strcasecmpEq psz_ext ext

theorem strrchr_eq_none_iff (s : List Char) (ch : Char) :
    strrchr s ch = none ↔ ch ∉ s := by
  induction s with
  | nil => simp [strrchr]
  | cons c cs ih =>
    simp only [strrchr, List.mem_cons]
    cases h : strrchr cs ch with
    | some r =>
      have hmem : ch ∈ cs := by
        by_contra hn
        rw [← ih] at hn
        simp [h] at hn
      simp [hmem]
    | none =>
      have hcs : ch ∉ cs := ih.mp h
      by_cases hc : c = ch
      · simp [hc]
      · simp only [if_neg hc]
        constructor
        · intro _
          rintro (hh | hh)
          · exact hc hh.symm
          · exact hcs hh
        · intro _; trivial

theorem strrchr_eq_some_imp (s t : List Char) (ch : Char)
    (h : strrchr s ch = some t) :
    ∃ pre, s = pre ++ t ∧ t.head? = some ch ∧ ch ∉ t.tail := by
  induction s with
  | nil => simp [strrchr] at h
  | cons c cs ih =>
    cases hcs : strrchr cs ch with
    | some r =>
      simp only [strrchr, hcs] at h
      obtain ⟨pre, hpre, hh, ht⟩ := ih (by rw [hcs, h])
      exact ⟨c :: pre, by simp [hpre], hh, ht⟩
    | none =>
      simp only [strrchr, hcs] at h
      by_cases hc : c = ch
      · rw [if_pos hc] at h
        obtain rfl : c :: cs = t := by injection h
        refine ⟨[], by simp, by simp [hc], ?_⟩
        simpa using (strrchr_eq_none_iff cs ch).mp hcs
      · rw [if_neg hc] at h
        exact absurd h (by simp)

theorem strrchr_append (pre t : List Char) (ch : Char)
    (hh : t.head? = some ch) (ht : ch ∉ t.tail) :
    strrchr (pre ++ t) ch = some t := by
  induction pre with
  | nil =>
    cases t with
    | nil => simp at hh
    | cons a ts =>
      simp only [List.head?, Option.some.injEq] at hh
      simp only [List.tail] at ht
      simp only [List.nil_append, strrchr]
      rw [(strrchr_eq_none_iff ts ch).mpr ht, if_pos hh]
  | cons p ps ih =>
    simp only [List.cons_append, strrchr, List.append_eq, ih]

/-- C9: `demux_IsPathExtension` returns true exactly when the path contains a
dot and the suffix starting at the last dot equals the extension up to ASCII
case; in particular any dot-free path yields false. -/
theorem C9_is_path_extension_characterisation (path ext : List Char) :
    (demux_IsPathExtension path ext = true ↔
      ∃ pre suf, path = pre ++ suf ∧ suf.head? = some '.' ∧ '.' ∉ suf.tail ∧
        suf.map tolower = ext.map tolower) ∧
    ('.' ∉ path → demux_IsPathExtension path ext = false) := by
  constructor
  · constructor
    · intro h
      cases hs : strrchr path '.' with
      | none =>
        simp only [demux_IsPathExtension, hs] at h
        exact absurd h (by simp)
      | some suf =>
        simp only [demux_IsPathExtension, hs, strcasecmpEq, beq_iff_eq] at h
        obtain ⟨pre, hpre, hh, ht⟩ := strrchr_eq_some_imp path suf '.' hs
        exact ⟨pre, suf, hpre, hh, ht, h⟩
    · rintro ⟨pre, suf, rfl, hh, ht, hmap⟩
      simp only [demux_IsPathExtension, strrchr_append pre suf '.' hh ht,
        strcasecmpEq, beq_iff_eq]
      exact hmap
  · intro hnd
    simp only [demux_IsPathExtension, (strrchr_eq_none_iff path '.').mpr hnd]

theorem C9_is_path_extension_witness :
    demux_IsPathExtension ['a', 'b'] ['.', 'm', 'p', '3'] = false ∧
    (∃ pre suf, (['f', '.', 'M', 'P', '3'] : List Char) = pre ++ suf ∧
      suf.head? = some '.' ∧ '.' ∉ suf.tail ∧
      suf.map tolower = (['.', 'm', 'p', '3'] : List Char).map tolower) :=
  ⟨(C9_is_path_extension_characterisation ['a', 'b'] ['.', 'm', 'p', '3']).2
      (by decide),
   (C9_is_path_extension_characterisation
      ['f', '.', 'M', 'P', '3'] ['.', 'm', 'p', '3']).1.mp (by decide)⟩

/-- Modelled from the spec: `VLC_CLIP(v, lo, hi)` (vlc_common.h, outside the
excerpt) clamps `v` into the interval `[lo, hi]`. -/
def VLC_CLIP (v lo hi : ℚ) : ℚ := min (max v lo) hi

/-- The 4-entry YUVP palette of `vout_OSDEpgSlider`
(video_epg.c lines 47-55). -/
def sliderPalette : List (List ℕ) :=
  [[0xff, 0x80, 0x80, 0x00], [0x00, 0x80, 0x80, 0x00],
   [0xff, 0x80, 0x80, 0xff], [0x00, 0x80, 0x80, 0xff]]

/-- One pixel of the slider, `2 * is_border + is_outline` as in
video_epg.c lines 79-88. -/
def sliderPixel (width height filled_part_width i j : ℤ) : ℕ :=
  let is_outline : Bool := j == 0 || j == height - 1 || i == 0 || i == width - 1
  let is_border : Bool := j < 3 || j > height - 4 || i < 3 || i > width - 4 ||
    i < filled_part_width
  2 * (if is_border then 1 else 0) + (if is_outline then 1 else 0)

/-- `vout_OSDEpgSlider` (video_epg.c lines 42-93), restricted to the pixel
matrix it writes: the ratio is clamped, the filled width is the truncation of
`ratio * width` (nonnegative, hence the floor), and each pixel of the
`height × width` plane gets `2 * is_border + is_outline`. -/
def vout_OSDEpgSlider (width height : ℕ) (ratio : ℚ) : List (List ℕ) :=
  let r := VLC_CLIP ratio 0 1
  let filled_part_width : ℤ := Int.floor (r * width)
  (List.range height).map (fun j =>
    (List.range width).map (fun i =>
      sliderPixel width height filled_part_width i j))

theorem sliderPixel_lt_four (w h f i j : ℤ) : sliderPixel w h f i j < 4 := by
  dsimp only [sliderPixel]
  split <;> split <;> norm_num

/-- C10: for any ratio (also outside `[0,1]`) and positive dimensions, the
slider clamps the ratio into `[0,1]` before computing the filled part (whose
width hence lies in `[0, width]`), and every pixel value written is a valid
index into the 4-entry palette. -/
theorem C10_slider_safety (width height : ℕ) (ratio : ℚ)
    (hw : 0 < width) (hh : 0 < height) :
    (0 ≤ VLC_CLIP ratio 0 1 ∧ VLC_CLIP ratio 0 1 ≤ 1) ∧
    (0 ≤ Int.floor (VLC_CLIP ratio 0 1 * width) ∧
      Int.floor (VLC_CLIP ratio 0 1 * width) ≤ (width : ℤ)) ∧
    ∀ row ∈ vout_OSDEpgSlider width height ratio, ∀ p ∈ row,
      p < sliderPalette.length := by
  have h0 : 0 ≤ VLC_CLIP ratio 0 1 := le_min (le_max_right ratio 0) (by norm_num)
  have h1 : VLC_CLIP ratio 0 1 ≤ 1 := min_le_right _ 1
  refine ⟨⟨h0, h1⟩, ⟨?_, ?_⟩, ?_⟩
  · exact Int.floor_nonneg.mpr (mul_nonneg h0 (by positivity))
  · have hle : VLC_CLIP ratio 0 1 * width ≤ (width : ℚ) :=
      mul_le_of_le_one_left (by positivity) h1
    calc Int.floor (VLC_CLIP ratio 0 1 * width) ≤ Int.floor ((width : ℚ)) :=
          Int.floor_le_floor hle
      _ = (width : ℤ) := Int.floor_natCast width
  · intro row hrow p hp
    simp only [vout_OSDEpgSlider, List.mem_map] at hrow
    obtain ⟨j, hj, rfl⟩ := hrow
    simp only [List.mem_map] at hp
    obtain ⟨i, hi, rfl⟩ := hp
    simpa [sliderPalette] using
      sliderPixel_lt_four (width : ℤ) (height : ℤ)
        (Int.floor (VLC_CLIP ratio 0 1 * width)) (i : ℤ) (j : ℤ)

theorem C10_slider_safety_witness :
    (0 ≤ VLC_CLIP (3 / 2 : ℚ) 0 1 ∧ VLC_CLIP (3 / 2 : ℚ) 0 1 ≤ 1) ∧
    (0 ≤ Int.floor (VLC_CLIP (3 / 2 : ℚ) 0 1 * (10 : ℕ)) ∧
      Int.floor (VLC_CLIP (3 / 2 : ℚ) 0 1 * (10 : ℕ)) ≤ ((10 : ℕ) : ℤ)) ∧
    ∀ row ∈ vout_OSDEpgSlider 10 5 (3 / 2), ∀ p ∈ row,
      p < sliderPalette.length :=
  C10_slider_safety 10 5 (3 / 2) (by norm_num) (by norm_num)

/-- The query enumeration `demux_query_e` (vlc_demux.h lines 86-146). -/
inductive demux_query_e
  | DEMUX_GET_POSITION
  | DEMUX_SET_POSITION
  | DEMUX_GET_LENGTH
  | DEMUX_GET_TIME
  | DEMUX_SET_TIME
  | DEMUX_GET_TITLE_INFO
  | DEMUX_SET_TITLE
  | DEMUX_SET_SEEKPOINT
  | DEMUX_SET_GROUP
  | DEMUX_SET_NEXT_DEMUX_TIME
  | DEMUX_GET_FPS
  | DEMUX_GET_META
  | DEMUX_HAS_UNSUPPORTED_META
  | DEMUX_GET_ATTACHMENTS
  | DEMUX_CAN_PAUSE
  | DEMUX_SET_PAUSE_STATE
  | DEMUX_GET_PTS_DELAY
  | DEMUX_CAN_CONTROL_PACE
  | DEMUX_CAN_CONTROL_RATE
  | DEMUX_SET_RATE
  | DEMUX_CAN_SEEK
  deriving DecidableEq

/-- Whether the header documents the query as allowed to fail: transcription
of the "can fail" / "cannot fail" annotations in the comments of
vlc_demux.h lines 90-145 (`DEMUX_GET_PTS_DELAY` is explicitly
"cannot fail"; the GET_POSITION / GET_LENGTH / GET_TIME comments carry
no "can fail"). -/
def canFail : demux_query_e → Bool
  | .DEMUX_GET_POSITION => false
  | .DEMUX_SET_POSITION => true
  | .DEMUX_GET_LENGTH => false
  | .DEMUX_GET_TIME => false
  | .DEMUX_SET_TIME => true
  | .DEMUX_GET_TITLE_INFO => true
  | .DEMUX_SET_TITLE => true
  | .DEMUX_SET_SEEKPOINT => true
  | .DEMUX_SET_GROUP => true
  | .DEMUX_SET_NEXT_DEMUX_TIME => true
  | .DEMUX_GET_FPS => true
  | .DEMUX_GET_META => true
  | .DEMUX_HAS_UNSUPPORTED_META => true
  | .DEMUX_GET_ATTACHMENTS => true
  | .DEMUX_CAN_PAUSE => true
  | .DEMUX_SET_PAUSE_STATE => true
  | .DEMUX_GET_PTS_DELAY => false
  | .DEMUX_CAN_CONTROL_PACE => true
  | .DEMUX_CAN_CONTROL_RATE => true
  | .DEMUX_SET_RATE => true
  | .DEMUX_CAN_SEEK => true

/-- The queries whose header comment carries "(assume false)"
(vlc_demux.h lines 128, 135, 140, 145). -/
def assumeFalseOnFail : demux_query_e → Bool
  | .DEMUX_CAN_PAUSE => true
  | .DEMUX_CAN_CONTROL_PACE => true
  | .DEMUX_CAN_CONTROL_RATE => true
  | .DEMUX_CAN_SEEK => true
  | _ => false

/-- Modelled from the spec: the informational state a conforming demuxer
answers `DEMUX_GET_LENGTH` and `DEMUX_GET_PTS_DELAY` from (the demuxer
implementations themselves are outside the excerpt). `duration = none`
means unknown; times are microseconds (`int64_t`). -/
structure DemuxInfoModel where
  duration : Option ℤ
  ptsDelay : ℤ

/-- Modelled from the spec: the two "cannot fail" informational queries; the
demuxer always produces a value, `DEMUX_GET_LENGTH` returning 0 when the
duration is unknown (vlc_demux.h line 93 "0 if unknown", line 131
"cannot fail"). Other queries are outside this fragment of the model. -/
def controlInfoQuery (m : DemuxInfoModel) (q : demux_query_e) : Option ℤ :=
  match q with
  | .DEMUX_GET_LENGTH => some (m.duration.getD 0)
  | .DEMUX_GET_PTS_DELAY => some m.ptsDelay
  | _ => none

/-- C6: `DEMUX_GET_LENGTH` and `DEMUX_GET_PTS_DELAY` always produce a value
(the header marks neither "can fail"), with the length defaulting to 0 when
the duration is unknown. -/
theorem C6_get_length_pts_delay_cannot_fail (m : DemuxInfoModel) :
    (controlInfoQuery m .DEMUX_GET_LENGTH).isSome = true ∧
    (controlInfoQuery m .DEMUX_GET_PTS_DELAY).isSome = true ∧
    canFail .DEMUX_GET_LENGTH = false ∧
    canFail .DEMUX_GET_PTS_DELAY = false ∧
    (m.duration = none → controlInfoQuery m .DEMUX_GET_LENGTH = some 0) := by
  refine ⟨rfl, rfl, rfl, rfl, ?_⟩
  intro h
  simp [controlInfoQuery, h]

theorem C6_get_length_pts_delay_witness :
    controlInfoQuery ⟨none, 5⟩ .DEMUX_GET_LENGTH = some 0 :=
  (C6_get_length_pts_delay_cannot_fail ⟨none, 5⟩).2.2.2.2 rfl

/-- The host's possible reactions to the result of a boolean capability
query. -/
inductive HostReaction
  | useValue (b : Bool)
  | fatal
  | retry
  deriving DecidableEq

/-- Modelled from the spec: how a conforming host reacts to a boolean
capability query result (`none` = the demuxer failed the query): it always
uses a value, a failure standing for capability = false — never a fatal
error, never a retry (the "(assume false)" convention of vlc_demux.h
lines 128, 135, 140, 145). -/
def hostCapabilityReaction (r : Option Bool) : HostReaction :=
  .useValue (r.getD false)

/-- C7: each boolean capability query is marked assume-false in the header,
and the host maps a failed answer to capability = false, never reacting
fatally and never retrying. -/
theorem C7_capability_failure_assumed_false (r : Option Bool) :
    (assumeFalseOnFail .DEMUX_CAN_PAUSE = true ∧
      assumeFalseOnFail .DEMUX_CAN_CONTROL_PACE = true ∧
      assumeFalseOnFail .DEMUX_CAN_SEEK = true) ∧
    (r = none → hostCapabilityReaction r = .useValue false) ∧
    hostCapabilityReaction r ≠ .fatal ∧
    hostCapabilityReaction r ≠ .retry := by
  refine ⟨⟨rfl, rfl, rfl⟩, ?_, ?_, ?_⟩
  · intro h; simp [hostCapabilityReaction, h]
  · simp [hostCapabilityReaction]
  · simp [hostCapabilityReaction]

theorem C7_capability_failure_witness :
    hostCapabilityReaction none = .useValue false :=
  (C7_capability_failure_assumed_false none).2.1 rfl

/-- A title descriptor (`input_title_t`, declared outside the excerpt): what
matters to the title-info contract is its seekpoint (chapter) count. -/
structure input_title_t where
  i_seekpoint : ℕ
  deriving DecidableEq

/-- Total number of seekpoints over all titles of the content. -/
def totalSeekpoints (titles : List input_title_t) : ℕ :=
  (titles.map input_title_t.i_seekpoint).sum

/-- Modelled from the spec: a conforming `DEMUX_GET_TITLE_INFO` (the demuxer
implementations are outside the excerpt; vlc_demux.h line 98 says
"TITLE_INFO only if more than 1 title or 1 chapter"): the query fails when
at most one title and at most one seekpoint exist, and otherwise returns the
title descriptor array together with its count. -/
def DEMUX_GET_TITLE_INFO_query (titles : List input_title_t) :
    Option (List input_title_t × ℕ) :=
  if 1 < titles.length ∨ 1 < totalSeekpoints titles then
    some (titles, titles.length)
  else none

/-- C1: the title-info query fails exactly on content with at most one title
and at most one seekpoint, and on all other content it succeeds with at
least one title descriptor. -/
theorem C1_title_info_contract (titles : List input_title_t) :
    (titles.length ≤ 1 ∧ totalSeekpoints titles ≤ 1 →
      DEMUX_GET_TITLE_INFO_query titles = none) ∧
    (1 < titles.length ∨ 1 < totalSeekpoints titles →
      ∃ arr n, DEMUX_GET_TITLE_INFO_query titles = some (arr, n) ∧
        1 ≤ arr.length) := by
  constructor
  · rintro ⟨h1, h2⟩
    have hn : ¬(1 < titles.length ∨ 1 < totalSeekpoints titles) := by omega
    simp [DEMUX_GET_TITLE_INFO_query, hn]
  · intro h
    refine ⟨titles, titles.length, ?_, ?_⟩
    · rw [DEMUX_GET_TITLE_INFO_query, if_pos h]
    · rcases h with h | h
      · omega
      · cases titles with
        | nil => simp [totalSeekpoints] at h
        | cons a ts => simp

theorem C1_title_info_witness :
    DEMUX_GET_TITLE_INFO_query [⟨0⟩] = none ∧
    (∃ arr n, DEMUX_GET_TITLE_INFO_query [⟨3⟩] = some (arr, n) ∧
      1 ≤ arr.length) :=
  ⟨(C1_title_info_contract [⟨0⟩]).1 (by decide),
   (C1_title_info_contract [⟨3⟩]).2 (by decide)⟩

/-- The `info` block of `demux_t` (vlc_demux.h lines 65-72): update flags,
current title index and current seekpoint index. -/
structure demux_info_t where
  i_update : ℕ
  i_title : ℕ
  i_seekpoint : ℕ
  deriving DecidableEq

/-- Modelled from the spec: the update bit the demuxer sets when the current
title changed (`INPUT_UPDATE_TITLE`, declared outside the excerpt). -/
def INPUT_UPDATE_TITLE : ℕ := 16

/-- Modelled from the spec: the update bit the demuxer sets when the current
seekpoint changed (`INPUT_UPDATE_SEEKPOINT`, declared outside the
excerpt). -/
def INPUT_UPDATE_SEEKPOINT : ℕ := 32

/-- Modelled from the spec: a conforming `DEMUX_SET_TITLE` (vlc_demux.h
line 102; the implementations are outside the excerpt): with `count` titles
reported by the last successful title-info query, an index inside
`[0, count)` is accepted and recorded, any other index is rejected with the
navigation state unchanged. The `Bool` is the success flag. -/
def DEMUX_SET_TITLE_query (info : demux_info_t) (count : ℕ) (idx : ℤ) :
    Bool × demux_info_t :=
  if 0 ≤ idx ∧ idx < count then
    (true, { info with i_title := idx.toNat,
                       i_update := info.i_update ||| INPUT_UPDATE_TITLE })
  else (false, info)

/-- Modelled from the spec: a conforming `DEMUX_SET_SEEKPOINT` (vlc_demux.h
line 103), as `DEMUX_SET_TITLE` but for the seekpoint index. -/
def DEMUX_SET_SEEKPOINT_query (info : demux_info_t) (count : ℕ) (idx : ℤ) :
    Bool × demux_info_t :=
  if 0 ≤ idx ∧ idx < count then
    (true, { info with i_seekpoint := idx.toNat,
                       i_update := info.i_update ||| INPUT_UPDATE_SEEKPOINT })
  else (false, info)

/-- C2: an out-of-range index makes Set title and Set seekpoint fail with the
navigation state unchanged, and repeating the same out-of-range call fails
again with the state still unchanged. -/
theorem C2_set_title_seekpoint_out_of_range (info : demux_info_t)
    (count : ℕ) (idx : ℤ) (h : ¬(0 ≤ idx ∧ idx < count)) :
    DEMUX_SET_TITLE_query info count idx = (false, info) ∧
    DEMUX_SET_SEEKPOINT_query info count idx = (false, info) ∧
    DEMUX_SET_TITLE_query
      (DEMUX_SET_TITLE_query info count idx).2 count idx = (false, info) ∧
    DEMUX_SET_SEEKPOINT_query
      (DEMUX_SET_SEEKPOINT_query info count idx).2 count idx = (false, info) := by
  refine ⟨?_, ?_, ?_, ?_⟩ <;>
    simp [DEMUX_SET_TITLE_query, DEMUX_SET_SEEKPOINT_query, h]

theorem C2_set_title_seekpoint_witness :
    DEMUX_SET_SEEKPOINT_query ⟨0, 0, 0⟩ 3 5 = (false, ⟨0, 0, 0⟩) ∧
    DEMUX_SET_SEEKPOINT_query
      (DEMUX_SET_SEEKPOINT_query ⟨0, 0, 0⟩ 3 5).2 3 5 = (false, ⟨0, 0, 0⟩) :=
  ⟨(C2_set_title_seekpoint_out_of_range ⟨0, 0, 0⟩ 3 5 (by decide)).2.1,
   (C2_set_title_seekpoint_out_of_range ⟨0, 0, 0⟩ 3 5 (by decide)).2.2.2⟩

/-- The fixed pacing/rate capabilities of a demuxer. -/
structure DemuxCaps where
  canControlPace : Bool
  canControlRate : Bool
  deriving DecidableEq

/-- What the host has learnt so far in the pacing/rate capability
negotiation: the recorded answers of `DEMUX_CAN_CONTROL_PACE` and
`DEMUX_CAN_CONTROL_RATE`, `none` while not (successfully) queried. -/
structure RateNegotiation where
  paceAnswer : Option Bool
  rateAnswer : Option Bool
  deriving DecidableEq

/-- The pacing/rate related queries of the negotiation. -/
inductive RateQuery
  | canPace
  | canRate
  | setRate (rate : ℤ)
  deriving DecidableEq

/-- Modelled from the spec: one query of the pacing/rate protocol of
vlc_demux.h lines 133-143 (the implementations are outside the excerpt):
`DEMUX_CAN_CONTROL_PACE` records the pace capability;
`DEMUX_CAN_CONTROL_RATE` is issued only once pace control was answered
false and records the rate capability; `DEMUX_SET_RATE` succeeds only when
a rate-capability query returned true. `none` means the call fails. -/
def rateProtoStep (caps : DemuxCaps) (st : RateNegotiation) :
    RateQuery → Option RateNegotiation
  | .canPace => some { st with paceAnswer := some caps.canControlPace }
  | .canRate =>
    if st.paceAnswer = some false then
      some { st with rateAnswer := some caps.canControlRate }
    else none
  | .setRate _ =>
    if st.rateAnswer = some true then some st else none

/-- A whole negotiation run from a given state; a failed query leaves the
recorded state unchanged and the host continues. -/
def rateProtoRun (caps : DemuxCaps) (st : RateNegotiation) :
    List RateQuery → RateNegotiation
  | [] => st
  | q :: qs =>
    match rateProtoStep caps st q with
    | some st2 => rateProtoRun caps st2 qs
    | none => rateProtoRun caps st qs

theorem rateProtoRun_pace_true_invariant (caps : DemuxCaps)
    (hp : caps.canControlPace = true) (qs : List RateQuery)
    (st : RateNegotiation)
    (h1 : st.paceAnswer ≠ some false) (h2 : st.rateAnswer ≠ some true) :
    (rateProtoRun caps st qs).paceAnswer ≠ some false ∧
    (rateProtoRun caps st qs).rateAnswer ≠ some true := by
  induction qs generalizing st with
  | nil => exact ⟨h1, h2⟩
  | cons q qs ih =>
    cases q with
    | canPace =>
      simp only [rateProtoRun, rateProtoStep]
      exact ih _ (by simp [hp]) h2
    | canRate =>
      simp only [rateProtoRun, rateProtoStep, if_neg h1]
      exact ih st h1 h2
    | setRate rate =>
      simp only [rateProtoRun, rateProtoStep, if_neg h2]
      exact ih st h1 h2

/-- C3: a `DEMUX_SET_RATE` call can only succeed when a prior
`DEMUX_CAN_CONTROL_RATE` query answered rate-capable = true; in particular,
on a pace-controllable demuxer, after any sequence of negotiation queries a
`DEMUX_SET_RATE` call fails. -/
theorem C3_set_rate_requires_rate_capability (caps : DemuxCaps)
    (st : RateNegotiation) (qs : List RateQuery) (rate : ℤ) :
    ((rateProtoStep caps st (.setRate rate)).isSome = true →
      st.rateAnswer = some true) ∧
    (caps.canControlPace = true →
      rateProtoStep caps (rateProtoRun caps ⟨none, none⟩ qs)
        (.setRate rate) = none) := by
  constructor
  · intro h
    by_cases hr : st.rateAnswer = some true
    · exact hr
    · simp [rateProtoStep, if_neg hr] at h
  · intro hp
    have hinv := rateProtoRun_pace_true_invariant caps hp qs ⟨none, none⟩
      (by simp) (by simp)
    simp [rateProtoStep, if_neg hinv.2]

theorem C3_set_rate_witness :
    (⟨some false, some true⟩ : RateNegotiation).rateAnswer = some true ∧
    rateProtoStep ⟨true, true⟩
      (rateProtoRun ⟨true, true⟩ ⟨none, none⟩ [.canPace, .canRate])
      (.setRate 2000) = none :=
  ⟨(C3_set_rate_requires_rate_capability ⟨false, true⟩
      ⟨some false, some true⟩ [] 2000).1 (by decide),
   (C3_set_rate_requires_rate_capability ⟨true, true⟩
      ⟨none, none⟩ [.canPace, .canRate] 2000).2 rfl⟩

/-- The outcome classification of a demux step, modelled from the spec
(§4.1 and §7: success, end-of-stream, transient "not enough data", fatal
error; the numeric return-code convention is outside the excerpt). -/
inductive StepOutcome
  | demuxed
  | endOfStream
  | insufficientData
  | fatalError
  deriving DecidableEq

/-- `stream_Peek` (vlc_stream.h, outside the excerpt): it makes available at
most the requested number of bytes, and no more than the source holds;
the result is the byte count actually available to the caller. -/
def stream_Peek (availBytes requested : ℕ) : ℕ := min availBytes requested

/-- The `CHECK_PEEK` guard (vlc_demux.h lines 203-205): when the peek
returns fewer bytes than requested the step stops early with the
"not enough data" outcome; otherwise execution continues
(`none` = no early return). -/
def CHECK_PEEK (availBytes requested : ℕ) : Option StepOutcome :=
  if stream_Peek availBytes requested < requested then
    some .insufficientData
  else none

/-- Modelled from the spec: a step() needing `requested` bytes of lookahead:
it returns the early outcome of `CHECK_PEEK` on a short peek and otherwise
demuxes and succeeds. -/
def stepWithPeek (availBytes requested : ℕ) : StepOutcome :=
  match CHECK_PEEK availBytes requested with
  | some r => r
  | none => .demuxed

/-- C4: a peek shorter than requested makes the step return the
insufficient-data outcome, which differs from both end-of-stream and fatal
error, and a retry once enough bytes are available succeeds. -/
theorem C4_short_peek_is_retryable (availBytes availRetry requested : ℕ)
    (hshort : availBytes < requested) (hretry : requested ≤ availRetry) :
    stepWithPeek availBytes requested = .insufficientData ∧
    StepOutcome.insufficientData ≠ StepOutcome.endOfStream ∧
    StepOutcome.insufficientData ≠ StepOutcome.fatalError ∧
    stepWithPeek availRetry requested = .demuxed := by
  have h1 : stream_Peek availBytes requested < requested := by
    simp only [stream_Peek]
    omega
  have h2 : ¬stream_Peek availRetry requested < requested := by
    simp only [stream_Peek]
    omega
  refine ⟨?_, by simp, by simp, ?_⟩
  · simp [stepWithPeek, CHECK_PEEK, if_pos h1]
  · simp [stepWithPeek, CHECK_PEEK, if_neg h2]

theorem C4_short_peek_witness :
    stepWithPeek 3 8 = .insufficientData ∧ stepWithPeek 8 8 = .demuxed :=
  ⟨(C4_short_peek_is_retryable 3 8 8 (by decide) (by decide)).1,
   (C4_short_peek_is_retryable 3 8 8 (by decide) (by decide)).2.2.2⟩

/-- Modelled from the spec: a demux step that leaves the demuxer at title
`t` and seekpoint `s`: the update bits are set exactly when the
corresponding value really changed ("Demux sets them on change",
vlc_demux.h lines 67-68). -/
def demuxStepNav (info : demux_info_t) (t s : ℕ) : demux_info_t :=
  { i_title := t
    i_seekpoint := s
    i_update := info.i_update |||
      (if t ≠ info.i_title then INPUT_UPDATE_TITLE else 0) |||
      (if s ≠ info.i_seekpoint then INPUT_UPDATE_SEEKPOINT else 0) }

/-- Modelled from the spec: the host consults the update flags right after a
step and removes them once taken into account ("Input removes them once
take into account", vlc_demux.h line 68): it returns the observed flags and
the state with the flags cleared. -/
def hostReadUpdate (info : demux_info_t) : ℕ × demux_info_t :=
  (info.i_update, { info with i_update := 0 })

theorem testBit_or_left (a b : ℕ) (n : ℕ) (h : a.testBit n = true) :
    (a ||| b).testBit n = true := by
  simp [Nat.testBit_or, h]

/-- C5: a step that changes neither title nor seekpoint leaves the update
flags untouched; a step that changes the title (resp. seekpoint) leaves the
corresponding bit observable by the immediately following host read; and
the host read clears the flags exactly once, a second read observing 0. -/
theorem C5_update_flags_discipline (info : demux_info_t) (t s : ℕ) :
    (t = info.i_title → s = info.i_seekpoint →
      (demuxStepNav info t s).i_update = info.i_update) ∧
    (t ≠ info.i_title →
      (hostReadUpdate (demuxStepNav info t s)).1.testBit 4 = true) ∧
    (s ≠ info.i_seekpoint →
      (hostReadUpdate (demuxStepNav info t s)).1.testBit 5 = true) ∧
    (hostReadUpdate info).2.i_update = 0 ∧
    (hostReadUpdate (hostReadUpdate info).2).1 = 0 := by
  refine ⟨?_, ?_, ?_, rfl, rfl⟩
  · intro ht hs
    simp [demuxStepNav, ht, hs]
  · intro ht
    have hbit : Nat.testBit INPUT_UPDATE_TITLE 4 = true := by decide
    simp only [hostReadUpdate, demuxStepNav, if_pos ht]
    exact testBit_or_left _ _ 4 (by simp [Nat.testBit_or, hbit])
  · intro hs
    have hbit : Nat.testBit INPUT_UPDATE_SEEKPOINT 5 = true := by decide
    simp only [hostReadUpdate, demuxStepNav, if_pos hs]
    simp [Nat.testBit_or, hbit]

theorem C5_update_flags_witness :
    (demuxStepNav ⟨0, 0, 0⟩ 0 0).i_update = (0 : ℕ) ∧
    (hostReadUpdate (demuxStepNav ⟨0, 0, 0⟩ 1 0)).1.testBit 4 = true ∧
    (hostReadUpdate (demuxStepNav ⟨0, 0, 0⟩ 0 1)).1.testBit 5 = true :=
  ⟨(C5_update_flags_discipline ⟨0, 0, 0⟩ 0 0).1 rfl rfl,
   (C5_update_flags_discipline ⟨0, 0, 0⟩ 1 0).2.1 (by decide),
   (C5_update_flags_discipline ⟨0, 0, 0⟩ 0 1).2.2.1 (by decide)⟩

/-- An EPG event (`vlc_epg_event_t`, declared outside the excerpt): start
time, duration and name. -/
structure vlc_epg_event_t where
  i_start : ℤ
  i_duration : ℤ
  psz_name : Option (List Char)
  deriving DecidableEq

/-- An EPG table (`vlc_epg_t`, declared outside the excerpt): id, source id,
channel name, event list and designated current event. -/
structure vlc_epg_t where
  i_id : ℤ
  i_source_id : ℤ
  psz_name : Option (List Char)
  events : List vlc_epg_event_t
  p_current : Option vlc_epg_event_t
  deriving DecidableEq

/-- The slice of `input_item_t` read by `vout_OSDEpg`: the program-guide
table, the EPG time and the Title meta used as channel-name fallback. -/
structure input_item_t where
  p_epg_table : Option vlc_epg_t
  i_epg_time : ℤ
  metaTitle : Option (List Char)

/-- The observable actions of `vout_OSDEpg`, in program order. -/
inductive EpgAction
  | lockInput
  | dupCurrentEvent
  | unlockInput
  | buildSubpicture
  | putSubpicture
  deriving DecidableEq

/-- `vlc_epg_New` (outside the excerpt): a fresh empty table. -/
def vlc_epg_New (id source_id : ℤ) : vlc_epg_t :=
  ⟨id, source_id, none, [], none⟩

/-- `vlc_epg_event_Duplicate` (outside the excerpt): a structural copy of
the event. -/
def vlc_epg_event_Duplicate (e : vlc_epg_event_t) : vlc_epg_event_t := e

/-- `vlc_epg_AddEvent` followed by `vlc_epg_SetCurrent` at the added event's
start time, the combination performed in `vout_OSDEpg`
(video_epg.c lines 307-313). -/
def epgAddAndSetCurrent (epg : vlc_epg_t) (e : vlc_epg_event_t) : vlc_epg_t :=
  { epg with events := epg.events ++ [e], p_current := some e }

/-- `vout_OSDEpg` (video_epg.c lines 285-362) with allocations assumed to
succeed, embedded as the snapshot it hands to the subpicture updater, its
success flag, and the trace of its observable actions: it locks the input,
duplicates the designated current event of the input's EPG table into a
fresh table, reads the EPG time, unlocks, and only afterwards builds and
queues the subpicture (or returns the generic error when no table
exists). -/
def vout_OSDEpg (input : input_item_t) :
    Option vlc_epg_t × Bool × List EpgAction :=
  let epg : Option vlc_epg_t :=
    match input.p_epg_table with
    | none => none
    | some tmp =>
      let base := vlc_epg_New tmp.i_id tmp.i_source_id
      let withEvent :=
        match tmp.p_current with
        | none => base
        | some cur => epgAddAndSetCurrent base (vlc_epg_event_Duplicate cur)
      some { withEvent with psz_name := tmp.psz_name }
  let lockedTrace :=
    [EpgAction.lockInput] ++
    (match input.p_epg_table with
     | none => []
     | some tmp =>
       match tmp.p_current with
       | none => []
       | some _ => [EpgAction.dupCurrentEvent]) ++
    [EpgAction.unlockInput]
  match epg with
  | none => (none, false, lockedTrace)
  | some e =>
    let e2 := if e.psz_name = none then { e with psz_name := input.metaTitle }
      else e
    (some e2, true,
      lockedTrace ++ [EpgAction.buildSubpicture, EpgAction.putSubpicture])

/-- C8: the trace of `vout_OSDEpg` starts with taking the input lock; the
only action performed while holding it is the duplication of the current
event (which does happen there whenever the table has one); the lock is
never re-taken; the subpicture is built and queued strictly after the
unlock; and the snapshot handed to the renderer is a fresh table whose
current event is a structural copy of the table's current event. -/
theorem C8_epg_snapshot_under_lock (input : input_item_t) :
    (∃ locked after,
      (vout_OSDEpg input).2.2 =
        [EpgAction.lockInput] ++ locked ++ [EpgAction.unlockInput] ++ after ∧
      (∀ a ∈ locked, a = EpgAction.dupCurrentEvent) ∧
      EpgAction.dupCurrentEvent ∉ after ∧
      EpgAction.lockInput ∉ locked ++ [EpgAction.unlockInput] ++ after ∧
      (∀ tmp, input.p_epg_table = some tmp → tmp.p_current ≠ none →
        EpgAction.dupCurrentEvent ∈ locked) ∧
      ((vout_OSDEpg input).1 ≠ none →
        after = [EpgAction.buildSubpicture, EpgAction.putSubpicture])) ∧
    (∀ tmp cur, input.p_epg_table = some tmp → tmp.p_current = some cur →
      ∃ e, (vout_OSDEpg input).1 = some e ∧
        e.p_current = some (vlc_epg_event_Duplicate cur) ∧
        e.i_id = tmp.i_id ∧ e.i_source_id = tmp.i_source_id ∧
        e.events = [vlc_epg_event_Duplicate cur]) := by
  obtain ⟨table, time, meta⟩ := input
  cases table with
  | none =>
    refine ⟨⟨[], [], ?_, ?_, ?_, ?_, ?_, ?_⟩, ?_⟩ <;>
      simp [vout_OSDEpg]
  | some tmp =>
    cases hcur : tmp.p_current with
    | none =>
      refine ⟨⟨[], [EpgAction.buildSubpicture, EpgAction.putSubpicture],
        ?_, ?_, ?_, ?_, ?_, ?_⟩, ?_⟩
      · simp [vout_OSDEpg, hcur]
      · simp
      · decide
      · decide
      · intro tmp2 h1 h2
        obtain rfl : tmp = tmp2 := by injection h1
        exact absurd hcur h2
      · intro _; rfl
      · intro tmp2 cur2 h1 h2
        obtain rfl : tmp = tmp2 := by injection h1
        rw [hcur] at h2
        exact absurd h2 (by simp)
    | some cur =>
      refine ⟨⟨[EpgAction.dupCurrentEvent],
        [EpgAction.buildSubpicture, EpgAction.putSubpicture],
        ?_, ?_, ?_, ?_, ?_, ?_⟩, ?_⟩
      · simp [vout_OSDEpg, hcur]
      · simp
      · decide
      · decide
      · intro tmp2 h1 h2
        simp
      · intro _; rfl
      · intro tmp2 cur2 h1 h2
        obtain rfl : tmp = tmp2 := by injection h1
        rw [hcur] at h2
        obtain rfl : cur = cur2 := by injection h2
        simp only [vout_OSDEpg, hcur]
        refine ⟨_, rfl, ?_⟩
        split <;>
          simp [epgAddAndSetCurrent, vlc_epg_New, vlc_epg_event_Duplicate]

theorem C8_epg_snapshot_witness :
    ∃ e, (vout_OSDEpg ⟨some ⟨7, 9, none, [⟨100, 50, none⟩], some ⟨100, 50, none⟩⟩,
        120, none⟩).1 = some e ∧
      e.p_current = some (vlc_epg_event_Duplicate ⟨100, 50, none⟩) ∧
      e.i_id = (7 : ℤ) ∧ e.i_source_id = (9 : ℤ) ∧
      e.events = [vlc_epg_event_Duplicate ⟨100, 50, none⟩] :=
  (C8_epg_snapshot_under_lock
      ⟨some ⟨7, 9, none, [⟨100, 50, none⟩], some ⟨100, 50, none⟩⟩, 120, none⟩).2
    ⟨7, 9, none, [⟨100, 50, none⟩], some ⟨100, 50, none⟩⟩ ⟨100, 50, none⟩
    rfl rfl
